import Mathlib

/-!
Verification development for the Firefox add-on installation module
(`javascript/node/selenium-webdriver/firefox/extension.js`).

The JavaScript source is shallowly embedded: dynamic JS values produced by
the XML parser (xml2js) and by `JSON.parse` are modelled by the inductive
type `JsVal`; runtime failures (the `AddonFormatError` class, `TypeError`
from property access on `undefined`/`null`, plain `Error`, I/O rejections,
and errors surfaced by the external parsing libraries) are modelled by
`JsError`; promise chains become the `Except JsError` monad.  The external
collaborators (the `io` filesystem helper, the `io/zip` archive helper,
xml2js and `JSON.parse`) are not part of the translated source; they are
modelled from the specification, as noted on each of their definitions.
-/

/-- Errors a rejected promise can carry in the embedded code. -/
inductive JsError where
  | addonFormatError (msg : String)
  | typeError (msg : String)
  | xmlParseError (msg : String)
  | jsonParseError (msg : String)
  | ioError (msg : String)
  | genericError (msg : String)
deriving DecidableEq, Repr

/-- The message used for every modelled `TypeError` arising from a property
access on `undefined` or `null`. -/
def undefinedPropMsg : String := "Cannot read property of undefined"

/-- Dynamic JavaScript values as produced by xml2js and by `JSON.parse`:
`null`, booleans, numbers (integral, the only ones the claims exercise),
strings, arrays and plain objects with insertion-ordered keys. -/
inductive JsVal where
  | null
  | bool (b : Bool)
  | num (n : Int)
  | str (s : String)
  | arr (elems : List JsVal)
  | obj (fields : List (String × JsVal))

/-- First-match association-list lookup: the model of reading a key of a
JavaScript object (objects cannot hold duplicate keys, so first match is
the only match for faithful inputs). -/
def jsLookup : List (String × α) → String → Option α
  | [], _ => none
  | (k, v) :: rest, key => if k == key then some v else jsLookup rest key

/-- Decimal index parse used to model `x[k]` on arrays and strings. -/
def jsIndex? (s : String) : Option Nat :=
  if s.data.isEmpty then none
  else s.data.foldl
    (fun acc c => acc.bind (fun n => if c.isDigit then some (n * 10 + (c.toNat - 48)) else none))
    (some 0)

/-- `v[k]` on a defined value `v`: key lookup on objects, decimal indexing
on arrays and strings (the only accesses the source performs), `undefined`
(`none`) everywhere else. -/
def getPropD : JsVal → String → Option JsVal
  | JsVal.obj fields, k => jsLookup fields k
  | JsVal.arr elems, k =>
      match jsIndex? k with
      | some i => elems.get? i
      | none => none
  | JsVal.str s, k =>
      match jsIndex? k with
      | some i => (s.data.get? i).map (fun ch => JsVal.str (String.mk [ch]))
      | none => none
  | _, _ => none

/-- The own enumerable keys of a *defined, non-null* value (key list of
objects, index strings of arrays and strings, nothing for the other
primitives).  `Object.keys` itself, which throws on `null` and
`undefined`, is `jsObjectKeys` below. -/
def jsKeys : JsVal → List String
  | JsVal.obj fields => fields.map Prod.fst
  | JsVal.arr elems => (List.range elems.length).map (fun i => toString i)
  | JsVal.str s => (List.range s.data.length).map (fun i => toString i)
  | _ => []

/-- `Object.keys(x)`: throws a `TypeError` when `x` is `undefined` or
`null` (reachable — xml2js resolves empty input with `null`), and returns
the own enumerable keys otherwise. -/
def jsObjectKeys : Option JsVal → Except JsError (List String)
  | none => Except.error (JsError.typeError undefinedPropMsg)
  | some JsVal.null => Except.error (JsError.typeError undefinedPropMsg)
  | some v => Except.ok (jsKeys v)

/-- `x[k]` where `x` itself may be `undefined` (`none`): property access on
`undefined` or `null` throws a `TypeError`. -/
def getProp : Option JsVal → String → Except JsError (Option JsVal)
  | none, _ => Except.error (JsError.typeError undefinedPropMsg)
  | some JsVal.null, _ => Except.error (JsError.typeError undefinedPropMsg)
  | some v, k => Except.ok (getPropD v k)

/-- JavaScript truthiness of a defined value. -/
def jsTruthy : JsVal → Bool
  | JsVal.null => false
  | JsVal.bool b => b
  | JsVal.num n => n != 0
  | JsVal.str s => s != ""
  | JsVal.arr _ => true
  | JsVal.obj _ => true

/-- Truthiness of a possibly-`undefined` value. -/
def optTruthy : Option JsVal → Bool
  | none => false
  | some v => jsTruthy v

/-- Strict equality `v === s` between a dynamic value and a string. -/
def strictEqStr : JsVal → String → Bool
  | JsVal.str t, u => t == u
  | _, _ => false

/-- Splits a character list at every occurrence of `sep`
(the model of the JavaScript single-character `String.split`). -/
def splitChars (sep : Char) : List Char → List (List Char)
  | [] => [[]]
  | c :: cs =>
      let r := splitChars sep cs
      if c == sep then [] :: r
      else
        match r with
        | h :: t => (c :: h) :: t
        | [] => [[c]]

/-- `s.split(sep)` for a single-character separator. -/
def splitOnChar (s : String) (sep : Char) : List String :=
  (splitChars sep s.data).map (fun l => String.mk l)

/-- ASCII-faithful model of `String.toLowerCase` (the values the source
lowercases are plain ASCII). -/
def jsToLower (s : String) : String :=
  String.mk (s.data.map Char.toLower)

/-- `s.slice(-4)`: the last four UTF-16 units of `s`, or all of `s` when it
is shorter (the paths under test are ASCII so characters model units). -/
def sliceLast4 (s : String) : String :=
  String.mk (s.data.drop (s.data.length - 4))

/-- The Mozilla metadata namespace URI used by `parseInstallRdf`. -/
def emUri : String := "http://www.mozilla.org/2004/em-rdf#"

/-- The RDF syntax namespace URI used by `parseInstallRdf`. -/
def rdfUri : String := "http://www.w3.org/1999/02/22-rdf-syntax-ns#"

/-- The predicate the `Object.keys(namespaces).some(...)` callback of
`getNamespaceId` tests: the attribute named `ns` holds exactly the string
`url`. -/
def nsMatches (nsObj : JsVal) (url : String) (ns : String) : Bool :=
  match getPropD nsObj ns with
  | some v => strictEqStr v url
  | none => false

/-- `getNamespaceId(doc, url)` from the source: `Object.keys(doc)` (a
`TypeError` on the `null` document xml2js produces for empty input),
requires exactly one top-level key, reads the `$` attribute map of that
single root, iterates `Object.keys(namespaces)` (a `TypeError` when `$`
is absent or `null`) for the first attribute whose value strictly equals
`url`; a match containing a colon yields the text after the first colon
with a trailing colon appended, anything else yields the empty string. -/
def getNamespaceId (addonPath : String) (doc : JsVal) (url : String) : Except JsError String :=
  match jsObjectKeys (some doc) with
  | Except.error e => Except.error e
  | Except.ok keys =>
  if keys.length ≠ 1 then
    Except.error (JsError.addonFormatError ("Malformed manifest for add-on " ++ addonPath))
  else
    match getProp (some doc) (keys.headD "") with
    | Except.error e => Except.error e
    | Except.ok root =>
      match getProp root "$" with
      | Except.error e => Except.error e
      | Except.ok none => Except.error (JsError.typeError undefinedPropMsg)
      | Except.ok (some JsVal.null) => Except.error (JsError.typeError undefinedPropMsg)
      | Except.ok (some nsObj) =>
        match (jsKeys nsObj).find? (nsMatches nsObj url) with
        | none => Except.ok ""
        | some ns =>
          if ns.data.contains ':' then
            Except.ok (((splitOnChar ns ':').getD 1 "") ++ ":")
          else
            Except.ok ""

/-- `getNodeText(node, name)` from the source:
`node[name] && node[name][0] || ''`. -/
def getNodeText (node : Option JsVal) (name : String) : Except JsError JsVal :=
  match getProp node name with
  | Except.error e => Except.error e
  | Except.ok arr =>
    if optTruthy arr then
      match getProp arr "0" with
      | Except.error e => Except.error e
      | Except.ok first =>
          if optTruthy first then Except.ok (first.getD (JsVal.str ""))
          else Except.ok (JsVal.str "")
    else Except.ok (JsVal.str "")

/-- The normalized add-on descriptor built by the two manifest parsers.
`id` keeps the dynamic value the parser extracted; `name` and `version`
are `none` when the corresponding JavaScript field is `undefined`;
`unpack` is either a leftover dynamic value (`Sum.inl`, possible in the
legacy parser when the unpack element is not plain text) or a boolean. -/
structure AddonDetails where
  id : JsVal
  name : Option JsVal
  version : Option JsVal
  unpack : Sum JsVal Bool

/-- Truthiness of the `unpack` field, as tested by `install`. -/
def unpackTruthy : Sum JsVal Bool → Bool
  | Sum.inl v => jsTruthy v
  | Sum.inr b => b

/-- `parseInstallRdf` from the source, applied to the settled result of the
xml2js parse (`parseXml` resolves with the document or rejects with the
library error, which the source forwards unchanged). -/
def parseInstallRdf (addonPath : String) (parsed : Except JsError JsVal) :
    Except JsError AddonDetails :=
  match parsed with
  | Except.error e => Except.error e
  | Except.ok doc =>
  match getNamespaceId addonPath doc emUri with
  | Except.error e => Except.error e
  | Except.ok em =>
  match getNamespaceId addonPath doc rdfUri with
  | Except.error e => Except.error e
  | Except.ok rdf =>
  match getProp (some doc) (rdf ++ "RDF") with
  | Except.error e => Except.error e
  | Except.ok rdfNode =>
  match getProp rdfNode (rdf ++ "Description") with
  | Except.error e => Except.error e
  | Except.ok descList =>
  match getProp descList "0" with
  | Except.error e => Except.error e
  | Except.ok description =>
  match getNodeText description (em ++ "id") with
  | Except.error e => Except.error e
  | Except.ok idV =>
  match getNodeText description (em ++ "name") with
  | Except.error e => Except.error e
  | Except.ok nameV =>
  match getNodeText description (em ++ "version") with
  | Except.error e => Except.error e
  | Except.ok versionV =>
  match getNodeText description (em ++ "unpack") with
  | Except.error e => Except.error e
  | Except.ok unpackV =>
  let unpack0 : Sum JsVal Bool :=
    if jsTruthy unpackV then Sum.inl unpackV else Sum.inr false
  let unpack : Sum JsVal Bool :=
    match unpack0 with
    | Sum.inl (JsVal.str s) => Sum.inr (jsToLower s == "true")
    | u => u
  if jsTruthy idV then
    Except.ok { id := idV, name := some nameV, version := some versionV, unpack := unpack }
  else
    Except.error (JsError.addonFormatError ("Could not find add-on ID for " ++ addonPath))

/-- `parseManifestJson` from the source: destructures
`{name, version, applications}`, requires the truthy chain
`applications && applications.gecko && applications.gecko.id`, and builds
the descriptor with `unpack` unconditionally `false`. -/
def parseManifestJson (addonPath : String) (json : JsVal) : Except JsError AddonDetails :=
  match json with
  | JsVal.null => Except.error (JsError.typeError undefinedPropMsg)
  | j =>
    let name := getPropD j "name"
    let version := getPropD j "version"
    let applications := getPropD j "applications"
    let gecko := applications.bind (fun a => getPropD a "gecko")
    let gid := gecko.bind (fun g => getPropD g "id")
    if optTruthy applications && optTruthy gecko && optTruthy gid then
      match gid with
      | some idv =>
          Except.ok { id := idv, name := name, version := version, unpack := Sum.inr false }
      | none =>
          Except.error (JsError.addonFormatError ("Could not find add-on ID for " ++ addonPath))
    else
      Except.error (JsError.addonFormatError ("Could not find add-on ID for " ++ addonPath))

/-- A filesystem tree: a node is a file with (utf8) byte content, or a
directory mapping entry names to child nodes in insertion order. -/
inductive FsNode where
  | file (content : String)
  | dir (entries : List (String × FsNode))

/-- Path-string to segment list (POSIX separators, empty segments dropped). -/
def segsOf (p : String) : List String :=
  (splitOnChar p '/').filter (fun s => s ≠ "")

/-- `path.join(a, b)` for the well-formed string arguments the source
passes it. -/
def pathJoin (a b : String) : String := a ++ "/" ++ b

/-- Resolve a segment path inside a filesystem tree. -/
def findAt : List String → FsNode → Option FsNode
  | [], n => some n
  | _ :: _, FsNode.file _ => none
  | k :: rest, FsNode.dir es =>
      match jsLookup es k with
      | some child => findAt rest child
      | none => none

/-- Replace the binding of `k` in an entry list (append when absent),
preserving the order of the other entries. -/
def setEntry : List (String × α) → String → α → List (String × α)
  | [], k, v => [(k, v)]
  | (k1, v1) :: rest, k, v =>
      if k1 == k then (k, v) :: rest else (k1, v1) :: setEntry rest k v

/-- Write node `n` at a segment path: every proper ancestor of the target
must already exist as a directory (as for the underlying filesystem
operations), the final binding itself is created or replaced. Returns
`none` when an ancestor is missing or is a file. -/
def writeAt : List String → FsNode → FsNode → Option FsNode
  | [], _, _ => none
  | [k], FsNode.dir es, n => some (FsNode.dir (setEntry es k n))
  | k :: rest1 :: rest, FsNode.dir es, n =>
      match jsLookup es k with
      | some child => (writeAt (rest1 :: rest) child n).map (fun c => FsNode.dir (setEntry es k c))
      | none => none
  | _ :: _, FsNode.file _, _ => none

/-- The content of the file at a segment path, when a file is there. -/
def fileAt (p : List String) (fs : FsNode) : Option String :=
  match findAt p fs with
  | some (FsNode.file s) => some s
  | _ => none

/-- Modelled from the spec: the filesystem collaborator's
`stat(path) -> {isDirectory(): bool}` (`io.stat`, outside `src/`); it
resolves with whether the path is a directory and rejects with an I/O
error, propagated verbatim, when the path does not exist. -/
def ioStat (fs : FsNode) (p : String) : Except JsError Bool :=
  match findAt (segsOf p) fs with
  | none => Except.error (JsError.ioError ("ENOENT: no such file or directory, stat " ++ p))
  | some (FsNode.dir _) => Except.ok true
  | some (FsNode.file _) => Except.ok false

/-- Modelled from the spec: the filesystem collaborator's
`exists(path) -> bool` (`io.exists`, outside `src/`). -/
def ioExists (fs : FsNode) (p : String) : Bool :=
  (findAt (segsOf p) fs).isSome

/-- Modelled from the spec: the filesystem collaborator's
`read(path) -> bytes` (`io.read`, outside `src/`); rejects with an I/O
error on a missing path or a directory. -/
def ioRead (fs : FsNode) (p : String) : Except JsError String :=
  match findAt (segsOf p) fs with
  | some (FsNode.file s) => Except.ok s
  | some (FsNode.dir _) =>
      Except.error (JsError.ioError ("EISDIR: illegal operation on a directory, read " ++ p))
  | none => Except.error (JsError.ioError ("ENOENT: no such file or directory, open " ++ p))

/-- Modelled from the spec: the filesystem collaborator's
`copyFile(src, dst)` (`io.copy`, outside `src/`): reads the source file's
bytes and writes them unchanged at the destination path; I/O failures
(missing or directory source, missing destination directory) are
propagated. -/
def ioCopy (fs : FsNode) (src dst : String) : Except JsError FsNode :=
  match ioRead fs src with
  | Except.error e => Except.error e
  | Except.ok content =>
    match writeAt (segsOf dst) fs (FsNode.file content) with
    | some fs1 => Except.ok fs1
    | none => Except.error (JsError.ioError ("ENOENT: no such file or directory, open " ++ dst))

/-- Modelled from the spec: the filesystem collaborator's
`copyDirectory(src, dst)` (`io.copyDir`, outside `src/`): places a copy of
the whole source tree at the destination path. -/
def ioCopyDir (fs : FsNode) (src dst : String) : Except JsError FsNode :=
  match findAt (segsOf src) fs with
  | none => Except.error (JsError.ioError ("ENOENT: no such file or directory, scandir " ++ src))
  | some node =>
    match writeAt (segsOf dst) fs node with
    | some fs1 => Except.ok fs1
    | none => Except.error (JsError.ioError ("ENOENT: no such file or directory, mkdir " ++ dst))

/-- The external collaborators `getDetails`/`install` depend on but whose
code is outside this module: the xml2js `parseString` callback outcome,
`JSON.parse`, and the zip decoder giving an archive's member table from
the raw bytes of a zip file. -/
structure Collab where
  parseXml : String → Except JsError JsVal
  jsonParse : String → Except JsError JsVal
  unzipEntries : String → Except JsError (List (String × String))

/-- Modelled from the spec: the archive collaborator's
`open(path) -> archiveHandle` (`zip.load`, outside `src/`): reads the raw
bytes at the path and decodes the member table. -/
def zipLoad (c : Collab) (fs : FsNode) (p : String) :
    Except JsError (List (String × String)) :=
  match ioRead fs p with
  | Except.error e => Except.error e
  | Except.ok bytes => c.unzipEntries bytes

/-- Modelled from the spec: `archiveHandle.readEntry` (`archive.getFile`,
outside `src/`). -/
def archiveGetFile (archive : List (String × String)) (entry : String) :
    Except JsError String :=
  match jsLookup archive entry with
  | some s => Except.ok s
  | none => Except.error (JsError.ioError ("no such archive entry: " ++ entry))

/-- Place one archive entry in a tree, creating intermediate directories
(extraction semantics). -/
def placeEntry : List String → FsNode → String → FsNode
  | [], n, _ => n
  | [k], n, content =>
      let es := match n with | FsNode.dir es => es | FsNode.file _ => []
      FsNode.dir (setEntry es k (FsNode.file content))
  | k :: rest1 :: rest, n, content =>
      let es := match n with | FsNode.dir es => es | FsNode.file _ => []
      let child := (jsLookup es k).getD (FsNode.dir [])
      FsNode.dir (setEntry es k (placeEntry (rest1 :: rest) child content))

/-- Modelled from the spec: the archive collaborator's
`extractAll(path, destDir)` (`zip.unzip`, outside `src/`): decodes the
archive at `src` and writes its expanded entries as a directory at `dst`. -/
def zipUnzip (c : Collab) (fs : FsNode) (src dst : String) : Except JsError FsNode :=
  match zipLoad c fs src with
  | Except.error e => Except.error e
  | Except.ok entries =>
    let dirNode := entries.foldl (fun acc e => placeEntry (segsOf e.1) acc e.2) (FsNode.dir [])
    match writeAt (segsOf dst) fs dirNode with
    | some fs1 => Except.ok fs1
    | none => Except.error (JsError.ioError ("ENOENT: no such file or directory, mkdir " ++ dst))

/-- `parseDirectory` from the source: look for `install.rdf` first, then
`manifest.json`, read and dispatch to the matching parser, and fail with
`AddonFormatError` naming the directory when neither exists. -/
def parseDirectory (c : Collab) (fs : FsNode) (dirPath : String) :
    Except JsError AddonDetails :=
  let rdfPath := pathJoin dirPath "install.rdf"
  let jsonPath := pathJoin dirPath "manifest.json"
  if ioExists fs rdfPath then
    match ioRead fs rdfPath with
    | Except.error e => Except.error e
    | Except.ok buf => parseInstallRdf dirPath (c.parseXml buf)
  else if ioExists fs jsonPath then
    match ioRead fs jsonPath with
    | Except.error e => Except.error e
    | Except.ok buf =>
      match c.jsonParse buf with
      | Except.error e => Except.error e
      | Except.ok j => parseManifestJson dirPath j
  else
    Except.error
      (JsError.addonFormatError ("Couldn\x27t find install.rdf or manifest.json in " ++ dirPath))

/-- `parseXpiFile` from the source: open the archive, prefer the
`install.rdf` member, then `manifest.json`, and fail with
`AddonFormatError` naming the file when neither member exists. -/
def parseXpiFile (c : Collab) (fs : FsNode) (filePath : String) :
    Except JsError AddonDetails :=
  match zipLoad c fs filePath with
  | Except.error e => Except.error e
  | Except.ok archive =>
    if (jsLookup archive "install.rdf").isSome then
      match archiveGetFile archive "install.rdf" with
      | Except.error e => Except.error e
      | Except.ok buf => parseInstallRdf filePath (c.parseXml buf)
    else if (jsLookup archive "manifest.json").isSome then
      match archiveGetFile archive "manifest.json" with
      | Except.error e => Except.error e
      | Except.ok buf =>
        match c.jsonParse buf with
        | Except.error e => Except.error e
        | Except.ok j => parseManifestJson filePath j
    else
      Except.error
        (JsError.addonFormatError ("Couldn\x27t find install.rdf or manifest.json in " ++ filePath))

/-- `getDetails` from the source: stat the path first (a stat rejection
propagates), dispatch directories to `parseDirectory`, files with the
`.xpi` suffix to `parseXpiFile`, and reject anything else with a plain
`Error`. -/
def getDetails (c : Collab) (fs : FsNode) (addonPath : String) :
    Except JsError AddonDetails :=
  match ioStat fs addonPath with
  | Except.error e => Except.error e
  | Except.ok true => parseDirectory c fs addonPath
  | Except.ok false =>
    if sliceLast4 addonPath == ".xpi" then
      parseXpiFile c fs addonPath
    else
      Except.error (JsError.genericError ("Add-on path is not an xpi or a directory: " ++ addonPath))

/-- `install` from the source: obtain the descriptor, join the destination
stem `dir/<id>` (a non-string id makes `path.join` throw a `TypeError`),
then branch on the *path suffix*: `.xpi` sources are file-copied (packed)
or unzipped (unpack), all other sources are directory-copied; resolves
with the id and the updated filesystem. -/
def install (c : Collab) (fs : FsNode) (extension dir : String) :
    Except JsError (String × FsNode) :=
  match getDetails c fs extension with
  | Except.error e => Except.error e
  | Except.ok details =>
    match details.id with
    | JsVal.str idStr =>
      let dst := pathJoin dir idStr
      if sliceLast4 extension == ".xpi" then
        if unpackTruthy details.unpack then
          match zipUnzip c fs extension dst with
          | Except.error e => Except.error e
          | Except.ok fs1 => Except.ok (idStr, fs1)
        else
          match ioCopy fs extension (dst ++ ".xpi") with
          | Except.error e => Except.error e
          | Except.ok fs1 => Except.ok (idStr, fs1)
      else
        match ioCopyDir fs extension dst with
        | Except.error e => Except.error e
        | Except.ok fs1 => Except.ok (idStr, fs1)
    | _ => Except.error (JsError.typeError "path.join: id is not a string")

/-- `true` exactly on a rejection carrying the `AddonFormatError` class
(the error kind the specification calls MalformedManifest). -/
def isMalformed : Except JsError α → Bool
  | Except.error (JsError.addonFormatError _) => true
  | _ => false

/-- `true` exactly on the plain `Error` kind (what the specification calls
NotFound/InvalidSource). -/
def errIsGeneric : JsError → Bool
  | JsError.genericError _ => true
  | _ => false

/-- `true` exactly on a rejection carrying a plain `Error`. -/
def isGenericErr : Except JsError α → Bool
  | Except.error e => errIsGeneric e
  | Except.ok _ => false

/-- `true` exactly on a rejection. -/
def isErrorResult : Except JsError α → Bool
  | Except.error _ => true
  | Except.ok _ => false

/-- A well-formed legacy manifest document as xml2js parses it: prefixed
metadata namespace, default RDF namespace, id `addon@x`, unpack `TRUE`. -/
def docLegacy : JsVal := JsVal.obj [("RDF", JsVal.obj [
  ("$", JsVal.obj [("xmlns:em", JsVal.str emUri), ("xmlns", JsVal.str rdfUri)]),
  ("Description", JsVal.arr [JsVal.obj [
    ("em:id", JsVal.arr [JsVal.str "addon@x"]),
    ("em:unpack", JsVal.arr [JsVal.str "TRUE"])]])])]

/-- Description fields of a legacy manifest whose `em:unpack` element is
present but has empty text content. -/
def legacyDescEmptyUnpack : List (String × JsVal) :=
  [("em:id", JsVal.arr [JsVal.str "addon@y"]),
   ("em:unpack", JsVal.arr [JsVal.str ""])]

/-- A legacy manifest document whose unpack element is present but empty. -/
def docLegacyEmptyUnpack : JsVal := JsVal.obj [("RDF", JsVal.obj [
  ("$", JsVal.obj [("xmlns:em", JsVal.str emUri), ("xmlns", JsVal.str rdfUri)]),
  ("Description", JsVal.arr [JsVal.obj legacyDescEmptyUnpack])])]

/-- A parsed legacy document with both namespaces declared but no
`Description` node under the root. -/
def docNoDescription : JsVal := JsVal.obj [("RDF", JsVal.obj [
  ("$", JsVal.obj [("xmlns:em", JsVal.str emUri), ("xmlns", JsVal.str rdfUri)])])]

/-- The namespace attribute map binding the metadata URI twice: first as
the default (unprefixed) declaration, then under the `em` prefix. -/
def bothBindingsAttrs : List (String × JsVal) :=
  [("xmlns", JsVal.str emUri), ("xmlns:em", JsVal.str emUri)]

/-- A parsed document whose root declares the metadata URI both as the
default namespace and under the `em` prefix. -/
def docBothBindings : JsVal :=
  JsVal.obj [("RDF", JsVal.obj [("$", JsVal.obj bothBindingsAttrs)])]

/-- A modern manifest whose `applications.gecko.id` is present but is the
empty string. -/
def jsonEmptyId : JsVal :=
  JsVal.obj [("applications", JsVal.obj [("gecko", JsVal.obj [("id", JsVal.str "")])])]

/-- A well-formed modern manifest giving id `ext@x`. -/
def sampleManifestJson : JsVal := JsVal.obj [
  ("name", JsVal.str "n"), ("version", JsVal.str "1"),
  ("applications", JsVal.obj [("gecko", JsVal.obj [("id", JsVal.str "ext@x")])])]

/-- Concrete collaborators for witnesses: the zip decoder recognizes the
bytes `ZIPBYTES` as an archive holding one `manifest.json` member, the
JSON parser recognizes that member's text, and the XML parser always
reports a syntax error. -/
def sampleCollab : Collab := {
  parseXml := fun _ => Except.error (JsError.xmlParseError "x"),
  jsonParse := fun s =>
    if s == "MANIFEST" then Except.ok sampleManifestJson
    else Except.error (JsError.jsonParseError "bad"),
  unzipEntries := fun s =>
    if s == "ZIPBYTES" then Except.ok [("manifest.json", "MANIFEST")]
    else Except.error (JsError.ioError "not a zip") }

/-- The descriptor `getDetails` extracts from `sampleManifestJson`. -/
def sampleDetails : AddonDetails :=
  { id := JsVal.str "ext@x", name := some (JsVal.str "n"),
    version := some (JsVal.str "1"), unpack := Sum.inr false }

/-- A filesystem holding a packed `.xpi` source and an empty destination. -/
def sampleFs : FsNode := FsNode.dir [
  ("src", FsNode.dir [("ext.xpi", FsNode.file "ZIPBYTES")]),
  ("dest", FsNode.dir [])]

/-- `sampleFs` after copying the archive to `dest/ext@x.xpi`. -/
def sampleFsCopied : FsNode := FsNode.dir [
  ("src", FsNode.dir [("ext.xpi", FsNode.file "ZIPBYTES")]),
  ("dest", FsNode.dir [("ext@x.xpi", FsNode.file "ZIPBYTES")])]

/-- A filesystem whose source is a *directory* named `addon.xpi` holding a
modern manifest. -/
def sampleFsDirXpi : FsNode := FsNode.dir [
  ("addon.xpi", FsNode.dir [("manifest.json", FsNode.file "MANIFEST")]),
  ("dest", FsNode.dir [])]

/-- A filesystem whose source is a directory named `addon` holding a
modern manifest. -/
def sampleFsDir : FsNode := FsNode.dir [
  ("addon", FsNode.dir [("manifest.json", FsNode.file "MANIFEST")]),
  ("dest", FsNode.dir [])]

/-- The source directory node of `sampleFsDir`. -/
def sampleDirNode : FsNode := FsNode.dir [("manifest.json", FsNode.file "MANIFEST")]

/-- `sampleFsDir` after recursively copying the source to `dest/ext@x`. -/
def sampleFsDirCopied : FsNode := FsNode.dir [
  ("addon", sampleDirNode),
  ("dest", FsNode.dir [("ext@x", sampleDirNode)])]

/-- A directory holding both manifest files. -/
def sampleFsBoth : FsNode := FsNode.dir [
  ("addon", FsNode.dir [
    ("install.rdf", FsNode.file "RDFTEXT"),
    ("manifest.json", FsNode.file "MANIFEST")])]

theorem jsLookup_setEntry_self (es : List (String × α)) (k : String) (v : α) :
    jsLookup (setEntry es k v) k = some v := by
  induction es with
  | nil => simp [setEntry, jsLookup]
  | cons hd t ih =>
    obtain ⟨k1, v1⟩ := hd
    by_cases hk : k1 = k
    · subst hk; simp [setEntry, jsLookup]
    · simp [setEntry, jsLookup, hk, ih]

theorem jsLookup_setEntry_other (es : List (String × α)) (k k2 : String) (v : α)
    (h : k2 ≠ k) : jsLookup (setEntry es k v) k2 = jsLookup es k2 := by
  induction es with
  | nil => simp [setEntry, jsLookup, Ne.symm h]
  | cons hd t ih =>
    obtain ⟨k1, v1⟩ := hd
    by_cases hk : k1 = k
    · subst hk
      simp [setEntry, jsLookup, Ne.symm h]
    · simp [setEntry, jsLookup, hk, ih]

theorem fileAt_nil_dir (es : List (String × FsNode)) : fileAt [] (FsNode.dir es) = none := rfl

theorem fileAt_cons_file (k : String) (qt : List String) (s : String) :
    fileAt (k :: qt) (FsNode.file s) = none := rfl

theorem fileAt_cons_dir (k : String) (qt : List String) (es : List (String × FsNode)) :
    fileAt (k :: qt) (FsNode.dir es) =
      match jsLookup es k with
      | some c => fileAt qt c
      | none => none := by
  cases hl : jsLookup es k <;> simp [fileAt, findAt, hl]

theorem writeAt_findAt (p : List String) (fs n fs1 : FsNode)
    (hw : writeAt p fs n = some fs1) : findAt p fs1 = some n := by
  induction p generalizing fs fs1 with
  | nil => simp [writeAt] at hw
  | cons k rest ih =>
    cases fs with
    | file s => simp [writeAt] at hw
    | dir es =>
      cases rest with
      | nil =>
        unfold writeAt at hw
        simp at hw
        subst hw
        simp [findAt, jsLookup_setEntry_self]
      | cons r2 rt =>
        unfold writeAt at hw
        cases hl : jsLookup es k with
        | none => rw [hl] at hw; simp at hw
        | some child =>
          rw [hl] at hw
          rw [Option.map_eq_some'] at hw
          obtain ⟨c1, hc1, hfs1⟩ := hw
          subst hfs1
          simp [findAt, jsLookup_setEntry_self]
          exact ih child c1 hc1

theorem writeAt_fileAt_other (p : List String) (fs fs1 : FsNode) (s : String)
    (hw : writeAt p fs (FsNode.file s) = some fs1)
    (hfresh : findAt p fs = none) :
    ∀ q, q ≠ p → fileAt q fs1 = fileAt q fs := by
  induction p generalizing fs fs1 with
  | nil => simp [writeAt] at hw
  | cons k rest ih =>
    cases fs with
    | file s0 => simp [writeAt] at hw
    | dir es =>
      cases rest with
      | nil =>
        unfold writeAt at hw
        simp at hw
        have hlk : jsLookup es k = none := by
          unfold findAt at hfresh
          cases hl : jsLookup es k with
          | none => rfl
          | some child => rw [hl] at hfresh; simp [findAt] at hfresh
        subst hw
        intro q hq
        cases q with
        | nil => simp [fileAt, findAt]
        | cons q1 qt =>
          by_cases hqk : q1 = k
          · subst hqk
            cases qt with
            | nil => exact absurd rfl hq
            | cons a b =>
              rw [fileAt_cons_dir, fileAt_cons_dir, jsLookup_setEntry_self, hlk]
              simp [fileAt_cons_file]
          · rw [fileAt_cons_dir, fileAt_cons_dir,
              jsLookup_setEntry_other es k q1 (FsNode.file s) hqk]
      | cons r2 rt =>
        unfold writeAt at hw
        cases hl : jsLookup es k with
        | none => rw [hl] at hw; simp at hw
        | some child =>
          rw [hl] at hw
          rw [Option.map_eq_some'] at hw
          obtain ⟨c1, hc1, hfs1⟩ := hw
          subst hfs1
          have hfr : findAt (r2 :: rt) child = none := by
            unfold findAt at hfresh
            rw [hl] at hfresh
            exact hfresh
          intro q hq
          cases q with
          | nil => simp [fileAt, findAt]
          | cons q1 qt =>
            by_cases hqk : q1 = k
            · subst hqk
              have hqt : qt ≠ r2 :: rt := by
                intro hh; exact hq (by rw [hh])
              rw [fileAt_cons_dir, fileAt_cons_dir, jsLookup_setEntry_self, hl]
              exact ih child c1 hc1 hfr qt hqt
            · rw [fileAt_cons_dir, fileAt_cons_dir,
                jsLookup_setEntry_other es k q1 c1 hqk]

theorem isGenericErr_error (e : JsError) :
    isGenericErr (Except.error e : Except JsError α) = errIsGeneric e := rfl

theorem isGenericErr_ok (v : α) :
    isGenericErr (Except.ok v : Except JsError α) = false := rfl

theorem getProp_error (o : Option JsVal) (k : String) (e : JsError)
    (h : getProp o k = Except.error e) : e = JsError.typeError undefinedPropMsg := by
  cases o with
  | none => exact (Except.error.inj h).symm
  | some v => cases v <;> first
    | exact (Except.error.inj h).symm
    | exact absurd h (by simp [getProp])

theorem getProp_no_generic (o : Option JsVal) (k : String) :
    isGenericErr (getProp o k) = false := by
  cases hp : getProp o k with
  | ok v => rfl
  | error e => rw [isGenericErr_error, getProp_error o k e hp]; rfl

theorem jsObjectKeys_error (o : Option JsVal) (e : JsError)
    (h : jsObjectKeys o = Except.error e) : e = JsError.typeError undefinedPropMsg := by
  cases o with
  | none => exact (Except.error.inj h).symm
  | some v => cases v <;> first
    | exact (Except.error.inj h).symm
    | exact absurd h (by simp [jsObjectKeys])

theorem getNamespaceId_no_generic (a : String) (doc : JsVal) (url : String) :
    isGenericErr (getNamespaceId a doc url) = false := by
  unfold getNamespaceId
  split
  · next e heq => rw [isGenericErr_error, jsObjectKeys_error _ _ heq]; rfl
  · split
    · rfl
    · split
      · next e heq => rw [isGenericErr_error, getProp_error _ _ _ heq]; rfl
      · split
        · next e heq => rw [isGenericErr_error, getProp_error _ _ _ heq]; rfl
        · rfl
        · rfl
        · split
          · rfl
          · split <;> rfl

theorem getNodeText_no_generic (node : Option JsVal) (name : String) :
    isGenericErr (getNodeText node name) = false := by
  unfold getNodeText
  split
  · next e heq => rw [isGenericErr_error, getProp_error _ _ _ heq]; rfl
  · split
    · split
      · next e heq => rw [isGenericErr_error, getProp_error _ _ _ heq]; rfl
      · split <;> rfl
    · rfl

theorem errNG_of (r : Except JsError α) (e : JsError)
    (hr : r = Except.error e) (hng : isGenericErr r = false) : errIsGeneric e = false := by
  subst hr; exact hng

theorem parseInstallRdf_no_generic (a : String) (parsed : Except JsError JsVal)
    (hp : isGenericErr parsed = false) :
    isGenericErr (parseInstallRdf a parsed) = false := by
  unfold parseInstallRdf
  cases parsed with
  | error e => exact hp
  | ok doc =>
  dsimp only
  cases h1 : getNamespaceId a doc emUri with
  | error e => exact errNG_of _ e h1 (getNamespaceId_no_generic a doc emUri)
  | ok em =>
  dsimp only
  cases h2 : getNamespaceId a doc rdfUri with
  | error e => exact errNG_of _ e h2 (getNamespaceId_no_generic a doc rdfUri)
  | ok rdf =>
  dsimp only
  cases h3 : getProp (some doc) (rdf ++ "RDF") with
  | error e => exact errNG_of _ e h3 (getProp_no_generic _ _)
  | ok rdfNode =>
  dsimp only
  cases h4 : getProp rdfNode (rdf ++ "Description") with
  | error e => exact errNG_of _ e h4 (getProp_no_generic _ _)
  | ok descList =>
  dsimp only
  cases h5 : getProp descList "0" with
  | error e => exact errNG_of _ e h5 (getProp_no_generic _ _)
  | ok description =>
  dsimp only
  cases h6 : getNodeText description (em ++ "id") with
  | error e => exact errNG_of _ e h6 (getNodeText_no_generic _ _)
  | ok idV =>
  dsimp only
  cases h7 : getNodeText description (em ++ "name") with
  | error e => exact errNG_of _ e h7 (getNodeText_no_generic _ _)
  | ok nameV =>
  dsimp only
  cases h8 : getNodeText description (em ++ "version") with
  | error e => exact errNG_of _ e h8 (getNodeText_no_generic _ _)
  | ok versionV =>
  dsimp only
  cases h9 : getNodeText description (em ++ "unpack") with
  | error e => exact errNG_of _ e h9 (getNodeText_no_generic _ _)
  | ok unpackV =>
  dsimp only
  split <;> rfl

theorem parseManifestJson_no_generic (a : String) (j : JsVal) :
    isGenericErr (parseManifestJson a j) = false := by
  unfold parseManifestJson
  split
  · rfl
  · dsimp only
    split
    · split <;> rfl
    · rfl

theorem ioStat_error_io (fs : FsNode) (p : String) (e : JsError)
    (h : ioStat fs p = Except.error e) : ∃ m, e = JsError.ioError m := by
  unfold ioStat at h
  split at h
  · exact ⟨_, (Except.error.inj h).symm⟩
  · exact absurd h (by simp)
  · exact absurd h (by simp)

theorem ioRead_no_generic (fs : FsNode) (p : String) :
    isGenericErr (ioRead fs p) = false := by
  unfold ioRead
  split <;> rfl

theorem zipLoad_no_generic (c : Collab) (fs : FsNode) (p : String)
    (hz : ∀ s, isGenericErr (c.unzipEntries s) = false) :
    isGenericErr (zipLoad c fs p) = false := by
  unfold zipLoad
  split
  · next e heq =>
    have := ioRead_no_generic fs p
    rw [heq] at this; exact this
  · next bytes heq => exact hz bytes

theorem archiveGetFile_no_generic (archive : List (String × String)) (entry : String) :
    isGenericErr (archiveGetFile archive entry) = false := by
  unfold archiveGetFile
  split <;> rfl

theorem parseXpiFile_no_generic (c : Collab) (fs : FsNode) (p : String)
    (hx : ∀ s, isGenericErr (c.parseXml s) = false)
    (hj : ∀ s, isGenericErr (c.jsonParse s) = false)
    (hz : ∀ s, isGenericErr (c.unzipEntries s) = false) :
    isGenericErr (parseXpiFile c fs p) = false := by
  unfold parseXpiFile
  split
  · next e heq =>
    have := zipLoad_no_generic c fs p hz
    rw [heq] at this; exact this
  · next archive heq =>
    split
    · split
      · next e h2 =>
        have := archiveGetFile_no_generic archive "install.rdf"
        rw [h2] at this; exact this
      · next buf h2 => exact parseInstallRdf_no_generic p (c.parseXml buf) (hx buf)
    · split
      · split
        · next e h3 =>
          have := archiveGetFile_no_generic archive "manifest.json"
          rw [h3] at this; exact this
        · next buf h3 =>
          split
          · next e h4 =>
            have := hj buf
            rw [h4] at this; exact this
          · next j h4 => exact parseManifestJson_no_generic p j
      · rfl

theorem parseDirectory_no_generic (c : Collab) (fs : FsNode) (d : String)
    (hx : ∀ s, isGenericErr (c.parseXml s) = false)
    (hj : ∀ s, isGenericErr (c.jsonParse s) = false) :
    isGenericErr (parseDirectory c fs d) = false := by
  unfold parseDirectory
  dsimp only
  split
  · split
    · next e heq =>
      have := ioRead_no_generic fs (pathJoin d "install.rdf")
      rw [heq] at this; exact this
    · next buf heq => exact parseInstallRdf_no_generic d (c.parseXml buf) (hx buf)
  · split
    · split
      · next e h2 =>
        have := ioRead_no_generic fs (pathJoin d "manifest.json")
        rw [h2] at this; exact this
      · next buf h2 =>
        split
        · next e h3 =>
          have := hj buf
          rw [h3] at this; exact this
        · next j h3 => exact parseManifestJson_no_generic d j
    · rfl

theorem ioCopy_no_generic (fs : FsNode) (src dst : String) :
    isGenericErr (ioCopy fs src dst) = false := by
  unfold ioCopy
  split
  · next e heq =>
    have := ioRead_no_generic fs src
    rw [heq] at this; exact this
  · split <;> rfl

theorem ioCopyDir_no_generic (fs : FsNode) (src dst : String) :
    isGenericErr (ioCopyDir fs src dst) = false := by
  unfold ioCopyDir
  split
  · rfl
  · split <;> rfl

theorem zipUnzip_no_generic (c : Collab) (fs : FsNode) (src dst : String)
    (hz : ∀ s, isGenericErr (c.unzipEntries s) = false) :
    isGenericErr (zipUnzip c fs src dst) = false := by
  unfold zipUnzip
  split
  · next e heq =>
    have := zipLoad_no_generic c fs src hz
    rw [heq] at this; exact this
  · dsimp only
    split <;> rfl

theorem getDetails_no_generic_cases (c : Collab) (fs : FsNode) (p : String)
    (hx : ∀ s, isGenericErr (c.parseXml s) = false)
    (hj : ∀ s, isGenericErr (c.jsonParse s) = false)
    (hz : ∀ s, isGenericErr (c.unzipEntries s) = false)
    (hcase : ioStat fs p = Except.ok true ∨
      (ioStat fs p = Except.ok false ∧ sliceLast4 p = ".xpi")) :
    isGenericErr (getDetails c fs p) = false := by
  unfold getDetails
  rcases hcase with h | ⟨h, hsfx⟩
  · rw [h]
    exact parseDirectory_no_generic c fs p hx hj
  · rw [h]
    dsimp only
    rw [if_pos (by simp [hsfx])]
    exact parseXpiFile_no_generic c fs p hx hj hz

theorem install_no_generic_cases (c : Collab) (fs : FsNode) (p dir : String)
    (hx : ∀ s, isGenericErr (c.parseXml s) = false)
    (hj : ∀ s, isGenericErr (c.jsonParse s) = false)
    (hz : ∀ s, isGenericErr (c.unzipEntries s) = false)
    (hcase : ioStat fs p = Except.ok true ∨
      (ioStat fs p = Except.ok false ∧ sliceLast4 p = ".xpi")) :
    isGenericErr (install c fs p dir) = false := by
  unfold install
  cases hd : getDetails c fs p with
  | error e => exact errNG_of _ e hd (getDetails_no_generic_cases c fs p hx hj hz hcase)
  | ok details =>
  dsimp only
  cases hid : details.id with
  | str idStr =>
    dsimp only
    split
    · split
      · cases hu : zipUnzip c fs p (pathJoin dir idStr) with
        | error e => exact errNG_of _ e hu (zipUnzip_no_generic c fs p _ hz)
        | ok fs1 => rfl
      · cases hu : ioCopy fs p (pathJoin dir idStr ++ ".xpi") with
        | error e => exact errNG_of _ e hu (ioCopy_no_generic fs p _)
        | ok fs1 => rfl
    · cases hu : ioCopyDir fs p (pathJoin dir idStr) with
      | error e => exact errNG_of _ e hu (ioCopyDir_no_generic fs p _)
      | ok fs1 => rfl
  | null => rfl
  | bool b => rfl
  | num n => rfl
  | arr l => rfl
  | obj flds => rfl

/-- C9: a failing stat rejects `install` with the stat error propagated
verbatim, before any suffix check or manifest lookup — even for `.xpi`
paths — and the plain InvalidSource `Error` arises exactly for paths that
stat successfully as non-directories without the `.xpi` suffix (the
collaborator hypotheses record that the external parsers and zip decoder
never themselves produce the plain `Error` kind). -/
theorem install_stat_error_order (c : Collab) (fs : FsNode) (p dir : String)
    (hx : ∀ s, isGenericErr (c.parseXml s) = false)
    (hj : ∀ s, isGenericErr (c.jsonParse s) = false)
    (hz : ∀ s, isGenericErr (c.unzipEntries s) = false) :
    (∀ e, ioStat fs p = Except.error e →
      getDetails c fs p = Except.error e ∧ install c fs p dir = Except.error e) ∧
    (ioStat fs p = Except.ok false → sliceLast4 p ≠ ".xpi" →
      install c fs p dir =
        Except.error (JsError.genericError ("Add-on path is not an xpi or a directory: " ++ p))) ∧
    (∀ m, install c fs p dir = Except.error (JsError.genericError m) →
      ioStat fs p = Except.ok false ∧ sliceLast4 p ≠ ".xpi") := by
  have hgd : ∀ e, ioStat fs p = Except.error e → getDetails c fs p = Except.error e := by
    intro e he
    unfold getDetails
    rw [he]
  have hins : ∀ e, getDetails c fs p = Except.error e → install c fs p dir = Except.error e := by
    intro e he
    unfold install
    rw [he]
  refine ⟨fun e he => ⟨hgd e he, hins e (hgd e he)⟩, fun hst hsfx => ?_, fun m hm => ?_⟩
  · refine hins _ ?_
    unfold getDetails
    rw [hst]
    dsimp only
    rw [if_neg (by simp [hsfx])]
  · cases hst : ioStat fs p with
    | error e =>
      rw [hins e (hgd e hst)] at hm
      obtain ⟨msg, hmsg⟩ := ioStat_error_io fs p e hst
      subst hmsg
      simp at hm
    | ok b =>
      cases b with
      | true =>
        have hng := install_no_generic_cases c fs p dir hx hj hz (Or.inl hst)
        rw [hm] at hng
        simp [isGenericErr, errIsGeneric] at hng
      | false =>
        by_cases hsfx : sliceLast4 p = ".xpi"
        · have hng := install_no_generic_cases c fs p dir hx hj hz (Or.inr ⟨hst, hsfx⟩)
          rw [hm] at hng
          simp [isGenericErr, errIsGeneric] at hng
        · exact ⟨rfl, hsfx⟩

/-- C9 witness: on `sampleFs`, the missing path `absent.xpi` makes
`install` reject with the stat error itself, even though the path carries
the `.xpi` suffix. -/
theorem install_stat_error_order_witness :
    (∀ s, isGenericErr (sampleCollab.parseXml s) = false) ∧
    (∀ s, isGenericErr (sampleCollab.jsonParse s) = false) ∧
    (∀ s, isGenericErr (sampleCollab.unzipEntries s) = false) ∧
    ioStat sampleFs "absent.xpi" =
      Except.error (JsError.ioError "ENOENT: no such file or directory, stat absent.xpi") ∧
    sliceLast4 "absent.xpi" = ".xpi" ∧
    install sampleCollab sampleFs "absent.xpi" "dest" =
      Except.error (JsError.ioError "ENOENT: no such file or directory, stat absent.xpi") := by
  have hx : ∀ s, isGenericErr (sampleCollab.parseXml s) = false := fun s => rfl
  have hj : ∀ s, isGenericErr (sampleCollab.jsonParse s) = false := by
    intro s
    unfold sampleCollab
    dsimp only
    split <;> rfl
  have hz : ∀ s, isGenericErr (sampleCollab.unzipEntries s) = false := by
    intro s
    unfold sampleCollab
    dsimp only
    split <;> rfl
  refine ⟨hx, hj, hz, rfl, rfl, ?_⟩
  exact ((install_stat_error_order sampleCollab sampleFs "absent.xpi" "dest" hx hj hz).1
    (JsError.ioError "ENOENT: no such file or directory, stat absent.xpi") rfl).2

/-- C8 counterexample: for empty input xml2js resolves with `null` — a
parse result with no top-level children at all (the model counts zero
keys for it) — and the program then throws a `TypeError`
at `Object.keys(doc)`, not the claimed MalformedManifest
(`AddonFormatError`). -/
theorem getNamespaceId_null_doc_cex :
    (jsKeys JsVal.null).length ≠ 1 ∧
    getNamespaceId "p" JsVal.null emUri
      = Except.error (JsError.typeError undefinedPropMsg) ∧
    isMalformed (getNamespaceId "p" JsVal.null emUri) = false ∧
    parseInstallRdf "p" (Except.ok JsVal.null)
      = Except.error (JsError.typeError undefinedPropMsg) ∧
    isMalformed (parseInstallRdf "p" (Except.ok JsVal.null)) = false := by
  exact ⟨by decide, rfl, rfl, rfl, rfl⟩

/-- C8 amended: for every *non-null* parsed document whose root has a
top-level child count other than one, namespace resolution — and hence
the whole legacy parse — fails with the MalformedManifest error
(`AddonFormatError`); the null document xml2js yields for empty input,
which likewise has no top-level children, instead fails with a
`TypeError` from `Object.keys(null)`. -/
theorem getNamespaceId_root_child_count (a url : String) (doc : JsVal)
    (hnn : doc ≠ JsVal.null)
    (h : (jsKeys doc).length ≠ 1) :
    getNamespaceId a doc url =
      Except.error (JsError.addonFormatError ("Malformed manifest for add-on " ++ a)) ∧
    parseInstallRdf a (Except.ok doc) =
      Except.error (JsError.addonFormatError ("Malformed manifest for add-on " ++ a)) ∧
    getNamespaceId a JsVal.null url = Except.error (JsError.typeError undefinedPropMsg) := by
  have hg : ∀ u, getNamespaceId a doc u =
      Except.error (JsError.addonFormatError ("Malformed manifest for add-on " ++ a)) := by
    intro u
    unfold getNamespaceId
    have hjk : jsObjectKeys (some doc) = Except.ok (jsKeys doc) := by
      cases doc <;> first | rfl | exact absurd rfl hnn
    rw [hjk]
    dsimp only
    rw [if_pos h]
  refine ⟨hg url, ?_, rfl⟩
  unfold parseInstallRdf
  dsimp only
  rw [hg emUri]

/-- C8 amended witness: a (non-null) document with two top-level keys —
hence two root children — is rejected as malformed. -/
theorem getNamespaceId_root_child_count_witness :
    (JsVal.obj [("RDF", JsVal.null), ("Extra", JsVal.null)]) ≠ JsVal.null ∧
    (jsKeys (JsVal.obj [("RDF", JsVal.null), ("Extra", JsVal.null)])).length ≠ 1 ∧
    parseInstallRdf "p" (Except.ok (JsVal.obj [("RDF", JsVal.null), ("Extra", JsVal.null)])) =
      Except.error (JsError.addonFormatError "Malformed manifest for add-on p") := by
  refine ⟨by simp, by decide, ?_⟩
  exact (getNamespaceId_root_child_count "p" emUri
    (JsVal.obj [("RDF", JsVal.null), ("Extra", JsVal.null)]) (by simp) (by decide)).2.1

/-- C4 counterexample: the legacy parser does not convert foreign failures
into MalformedManifest.  An XML syntax error reported by the xml2js
callback is propagated verbatim (still an `xmlParseError`, not an
`AddonFormatError`), and a well-namespaced document lacking the
`Description` node fails with a `TypeError` from the `undefined` indexing,
not with an `AddonFormatError`. -/
theorem parseInstallRdf_error_kinds_cex :
    parseInstallRdf "p" (Except.error (JsError.xmlParseError "Invalid character"))
      = Except.error (JsError.xmlParseError "Invalid character") ∧
    isMalformed (parseInstallRdf "p" (Except.error (JsError.xmlParseError "Invalid character")))
      = false ∧
    parseInstallRdf "p" (Except.ok docNoDescription)
      = Except.error (JsError.typeError undefinedPropMsg) ∧
    isMalformed (parseInstallRdf "p" (Except.ok docNoDescription)) = false := by
  exact ⟨rfl, rfl, rfl, rfl⟩

/-- C4 amended: on XML syntax errors the legacy parser rejects with the
XML parser's own error, propagated verbatim; when namespace resolution
succeeds but the `RDF`/`Description` lookup yields no node, it rejects
with a `TypeError`.  MalformedManifest (`AddonFormatError`) is reserved
for the wrong root-child count and the missing add-on id. -/
theorem parseInstallRdf_error_kinds (a em rdf : String) (e : JsError) (doc r : JsVal)
    (hem : getNamespaceId a doc emUri = Except.ok em)
    (hrdf : getNamespaceId a doc rdfUri = Except.ok rdf) :
    (parseInstallRdf a (Except.error e) = Except.error e) ∧
    (getProp (some doc) (rdf ++ "RDF") = Except.ok none →
      parseInstallRdf a (Except.ok doc) = Except.error (JsError.typeError undefinedPropMsg)) ∧
    (getProp (some doc) (rdf ++ "RDF") = Except.ok (some r) →
      getProp (some r) (rdf ++ "Description") = Except.ok none →
      parseInstallRdf a (Except.ok doc) = Except.error (JsError.typeError undefinedPropMsg)) := by
  refine ⟨rfl, fun h1 => ?_, fun h1 h2 => ?_⟩
  · unfold parseInstallRdf
    dsimp only
    rw [hem]
    dsimp only
    rw [hrdf]
    dsimp only
    rw [h1]
    rfl
  · unfold parseInstallRdf
    dsimp only
    rw [hem]
    dsimp only
    rw [hrdf]
    dsimp only
    rw [h1]
    dsimp only
    rw [h2]
    rfl

/-- C4 amended witness: instantiated on `docNoDescription`. -/
theorem parseInstallRdf_error_kinds_witness :
    getNamespaceId "p" docNoDescription emUri = Except.ok "em:" ∧
    getNamespaceId "p" docNoDescription rdfUri = Except.ok "" ∧
    getProp (some docNoDescription) ("" ++ "RDF")
      = Except.ok (some (JsVal.obj [("$",
          JsVal.obj [("xmlns:em", JsVal.str emUri), ("xmlns", JsVal.str rdfUri)])])) ∧
    getProp (some (JsVal.obj [("$",
          JsVal.obj [("xmlns:em", JsVal.str emUri), ("xmlns", JsVal.str rdfUri)])]))
        ("" ++ "Description") = Except.ok none ∧
    parseInstallRdf "p" (Except.ok docNoDescription)
      = Except.error (JsError.typeError undefinedPropMsg) := by
  refine ⟨rfl, rfl, rfl, rfl, ?_⟩
  exact (parseInstallRdf_error_kinds "p" "em:" "" (JsError.xmlParseError "x")
    docNoDescription (JsVal.obj [("$",
      JsVal.obj [("xmlns:em", JsVal.str emUri), ("xmlns", JsVal.str rdfUri)])])
    rfl rfl).2.2 rfl rfl

theorem getPropD_some_truthy (x v : JsVal) (k : String)
    (h : getPropD x k = some v) : jsTruthy x = true := by
  cases x with
  | null => simp [getPropD] at h
  | bool b => simp [getPropD] at h
  | num n => simp [getPropD] at h
  | arr l => rfl
  | obj fs => rfl
  | str s =>
    simp only [getPropD] at h
    cases hi : jsIndex? k with
    | none => rw [hi] at h; simp at h
    | some i =>
      rw [hi] at h
      rw [Option.map_eq_some'] at h
      obtain ⟨ch, hch, _⟩ := h
      have hne : s.data ≠ [] := by
        intro hd
        rw [hd] at hch
        simp at hch
      simp only [jsTruthy, bne_iff_ne, ne_eq]
      intro hs
      subst hs
      exact hne rfl

/-- C5 counterexample: in `jsonEmptyId` every segment of
`applications.gecko.id` is present (the id is the empty string), yet the
modern parser rejects with `AddonFormatError` instead of copying the id
into the descriptor. -/
theorem parseManifestJson_present_id_cex :
    ((getPropD jsonEmptyId "applications").bind (fun x => getPropD x "gecko")).bind
        (fun x => getPropD x "id") = some (JsVal.str "") ∧
    parseManifestJson "p" jsonEmptyId
      = Except.error (JsError.addonFormatError "Could not find add-on ID for p") :=
  ⟨rfl, rfl⟩

/-- C5 amended: the modern parser fails with MalformedManifest whenever
the truthy chain `applications && applications.gecko &&
applications.gecko.id` is falsy — any segment absent *or* falsy (for
example an empty-string id); a present and truthy id is copied verbatim
into the descriptor, `name` and `version` are copied as-is, and `unpack`
is unconditionally `false`. -/
theorem parseManifestJson_truthy_id (a : String) (fields : List (String × JsVal)) (v : JsVal) :
    ((optTruthy (getPropD (JsVal.obj fields) "applications")
        && optTruthy ((getPropD (JsVal.obj fields) "applications").bind
            (fun x => getPropD x "gecko"))
        && optTruthy (((getPropD (JsVal.obj fields) "applications").bind
            (fun x => getPropD x "gecko")).bind (fun x => getPropD x "id"))) = false →
      parseManifestJson a (JsVal.obj fields)
        = Except.error (JsError.addonFormatError ("Could not find add-on ID for " ++ a))) ∧
    ((((getPropD (JsVal.obj fields) "applications").bind
          (fun x => getPropD x "gecko")).bind (fun x => getPropD x "id") = some v) →
      jsTruthy v = true →
      parseManifestJson a (JsVal.obj fields)
        = Except.ok
            { id := v,
              name := getPropD (JsVal.obj fields) "name",
              version := getPropD (JsVal.obj fields) "version",
              unpack := Sum.inr false }) := by
  constructor
  · intro hfalse
    unfold parseManifestJson
    dsimp only
    rw [hfalse]
    rfl
  · intro hgid hv
    have hgecko : ∃ g, (getPropD (JsVal.obj fields) "applications").bind
        (fun x => getPropD x "gecko") = some g ∧ getPropD g "id" = some v := by
      cases hb : (getPropD (JsVal.obj fields) "applications").bind
          (fun x => getPropD x "gecko") with
      | none => rw [hb] at hgid; simp at hgid
      | some g =>
        rw [hb] at hgid
        simp at hgid
        exact ⟨g, rfl, hgid⟩
    obtain ⟨g, hg, hgid2⟩ := hgecko
    have happs : ∃ ap, getPropD (JsVal.obj fields) "applications" = some ap ∧
        getPropD ap "gecko" = some g := by
      cases hb : getPropD (JsVal.obj fields) "applications" with
      | none => rw [hb] at hg; simp at hg
      | some ap =>
        rw [hb] at hg
        simp at hg
        exact ⟨ap, rfl, hg⟩
    obtain ⟨ap, hap, hap2⟩ := happs
    unfold parseManifestJson
    dsimp only
    rw [hgid, hg, hap]
    simp only [optTruthy, getPropD_some_truthy ap g "gecko" hap2,
      getPropD_some_truthy g v "id" hgid2, hv, Bool.and_self, if_true]

/-- C5 amended witness: instantiated on `sampleManifestJson`. -/
theorem parseManifestJson_truthy_id_witness :
    (((getPropD sampleManifestJson "applications").bind (fun x => getPropD x "gecko")).bind
        (fun x => getPropD x "id") = some (JsVal.str "ext@x")) ∧
    jsTruthy (JsVal.str "ext@x") = true ∧
    parseManifestJson "p" sampleManifestJson
      = Except.ok
          { id := JsVal.str "ext@x",
            name := getPropD sampleManifestJson "name",
            version := getPropD sampleManifestJson "version",
            unpack := Sum.inr false } := by
  refine ⟨rfl, rfl, ?_⟩
  exact (parseManifestJson_truthy_id "p"
    [("name", JsVal.str "n"), ("version", JsVal.str "1"),
     ("applications", JsVal.obj [("gecko", JsVal.obj [("id", JsVal.str "ext@x")])])]
    (JsVal.str "ext@x")).2 rfl rfl

theorem find?_ext (l : List α) (p q : α → Bool) (h : ∀ x ∈ l, p x = q x) :
    l.find? p = l.find? q := by
  induction l with
  | nil => rfl
  | cons a t ih =>
    have ha := h a (List.mem_cons_self a t)
    by_cases hp : p a = true
    · rw [List.find?_cons_of_pos t hp, List.find?_cons_of_pos t (by rw [← ha]; exact hp)]
    · rw [List.find?_cons_of_neg t (by simp [hp]),
        List.find?_cons_of_neg t (by simp [← ha, hp])]
      exact ih (fun x hx => h x (List.mem_cons_of_mem a hx))

theorem find_nsMatches (attrs : List (String × JsVal)) (url : String)
    (hnd : (attrs.map Prod.fst).Nodup) :
    (attrs.map Prod.fst).find? (nsMatches (JsVal.obj attrs) url)
      = (attrs.find? (fun p => strictEqStr p.2 url)).map Prod.fst := by
  induction attrs with
  | nil => rfl
  | cons hd t ih =>
    obtain ⟨k, v⟩ := hd
    rw [List.map_cons, List.nodup_cons] at hnd
    obtain ⟨hk, hnd2⟩ := hnd
    have hhead : nsMatches (JsVal.obj ((k, v) :: t)) url k = strictEqStr v url := by
      simp [nsMatches, getPropD, jsLookup]
    by_cases hstr : strictEqStr v url = true
    · rw [List.map_cons,
        List.find?_cons_of_pos (t.map Prod.fst) (by rw [hhead]; exact hstr),
        List.find?_cons_of_pos t hstr]
      rfl
    · rw [List.map_cons,
        List.find?_cons_of_neg (t.map Prod.fst) (by simp [hhead, hstr]),
        List.find?_cons_of_neg t (by simp [hstr])]
      rw [find?_ext (t.map Prod.fst) (nsMatches (JsVal.obj ((k, v) :: t)) url)
        (nsMatches (JsVal.obj t) url) ?_]
      · exact ih hnd2
      · intro ns hns
        have hne : ¬ (k == ns) = true := by
          simp only [beq_iff_eq]
          intro hkn
          exact hk (hkn ▸ hns)
        simp [nsMatches, getPropD, jsLookup, hne]

/-- C6 counterexample: `docBothBindings` declares the metadata URI under
the prefixed attribute `xmlns:em` (a name containing a colon) bound to the
target URI, yet `getNamespaceId` resolves it to the empty string, because
the unprefixed declaration appears first in attribute order and the scan
stops at the first value match. -/
theorem getNamespaceId_first_match_cex :
    jsLookup bothBindingsAttrs "xmlns:em" = some (JsVal.str emUri) ∧
    (String.data "xmlns:em").contains ':' = true ∧
    getNamespaceId "p" docBothBindings emUri = Except.ok "" :=
  ⟨rfl, rfl, rfl⟩

/-- C6 amended: namespace resolution scans the root's attributes in
declaration order and decides according to the *first* attribute whose
value strictly equals the target URI: if that first match's name contains
a colon the text after the first colon plus `":"` is returned, otherwise
(including when no attribute matches) the empty string is returned —
later prefixed declarations of the same URI are ignored. -/
theorem getNamespaceId_first_match (a url k : String) (doc root : JsVal)
    (attrs : List (String × JsVal))
    (hkeys : jsKeys doc = [k])
    (hroot : getPropD doc k = some root)
    (hattrs : getPropD root "$" = some (JsVal.obj attrs))
    (hnd : (attrs.map Prod.fst).Nodup) :
    getNamespaceId a doc url = Except.ok
      (match attrs.find? (fun p => strictEqStr p.2 url) with
       | none => ""
       | some p =>
         if p.1.data.contains ':' then ((splitOnChar p.1 ':').getD 1 "") ++ ":" else "") := by
  unfold getNamespaceId
  have hjk : jsObjectKeys (some doc) = Except.ok [k] := by
    cases doc <;> first | exact congrArg Except.ok hkeys | simp [jsKeys] at hkeys
  rw [hjk]
  dsimp only
  rw [if_neg (by simp)]
  have hgp : getProp (some doc) (List.headD [k] "") = Except.ok (getPropD doc k) := by
    cases doc <;> first | rfl | simp [getPropD] at hroot
  rw [hgp, hroot]
  dsimp only
  have hgp2 : getProp (some root) "$" = Except.ok (getPropD root "$") := by
    cases root <;> first | rfl | simp [getPropD] at hattrs
  rw [hgp2, hattrs]
  dsimp only [jsKeys]
  rw [find_nsMatches attrs url hnd]
  cases hf : attrs.find? (fun p => strictEqStr p.2 url) with
  | none => rfl
  | some p =>
    obtain ⟨k1, v1⟩ := p
    dsimp only [Option.map]
    by_cases hc : (k1.data.contains ':') = true
    · rw [if_pos hc, if_pos hc]
    · rw [if_neg hc, if_neg hc]

/-- C6 amended witness: on `docBothBindings` the first match is the
unprefixed declaration, so resolution yields the empty string. -/
theorem getNamespaceId_first_match_witness :
    jsKeys docBothBindings = ["RDF"] ∧
    getPropD docBothBindings "RDF" = some (JsVal.obj [("$", JsVal.obj bothBindingsAttrs)]) ∧
    getPropD (JsVal.obj [("$", JsVal.obj bothBindingsAttrs)]) "$"
      = some (JsVal.obj bothBindingsAttrs) ∧
    (bothBindingsAttrs.map Prod.fst).Nodup ∧
    getNamespaceId "p" docBothBindings emUri = Except.ok
      (match bothBindingsAttrs.find? (fun p => strictEqStr p.2 emUri) with
       | none => ""
       | some p =>
         if p.1.data.contains ':' then ((splitOnChar p.1 ':').getD 1 "") ++ ":" else "") := by
  refine ⟨rfl, rfl, rfl, by decide, ?_⟩
  exact getNamespaceId_first_match "p" emUri "RDF" docBothBindings
    (JsVal.obj [("$", JsVal.obj bothBindingsAttrs)]) bothBindingsAttrs rfl rfl rfl (by decide)

theorem legacyUnpackNorm (s : String) :
    (match (if jsTruthy (JsVal.str s) = true then Sum.inl (JsVal.str s)
        else Sum.inr false : Sum JsVal Bool) with
     | Sum.inl (JsVal.str t) => Sum.inr (jsToLower t == "true")
     | u => u) = Sum.inr (jsToLower s == "true") := by
  by_cases hs : s = ""
  · subst hs
    rfl
  · rw [if_pos (by simp [jsTruthy, hs])]

theorem parseInstallRdf_unpack_aux (a em rdf s : String) (doc : JsVal)
    (rdfNode descList descr : Option JsVal) (d : AddonDetails)
    (hem : getNamespaceId a doc emUri = Except.ok em)
    (hrdf : getNamespaceId a doc rdfUri = Except.ok rdf)
    (h1 : getProp (some doc) (rdf ++ "RDF") = Except.ok rdfNode)
    (h2 : getProp rdfNode (rdf ++ "Description") = Except.ok descList)
    (h3 : getProp descList "0" = Except.ok descr)
    (hunp : getNodeText descr (em ++ "unpack") = Except.ok (JsVal.str s))
    (hok : parseInstallRdf a (Except.ok doc) = Except.ok d) :
    d.unpack = Sum.inr (jsToLower s == "true") := by
  unfold parseInstallRdf at hok
  dsimp only at hok
  rw [hem] at hok
  dsimp only at hok
  rw [hrdf] at hok
  dsimp only at hok
  rw [h1] at hok
  dsimp only at hok
  rw [h2] at hok
  dsimp only at hok
  rw [h3] at hok
  dsimp only at hok
  cases hid : getNodeText descr (em ++ "id") with
  | error e => rw [hid] at hok; exact absurd hok (by simp)
  | ok idV =>
  rw [hid] at hok
  dsimp only at hok
  cases hn : getNodeText descr (em ++ "name") with
  | error e => rw [hn] at hok; exact absurd hok (by simp)
  | ok nameV =>
  rw [hn] at hok
  dsimp only at hok
  cases hv2 : getNodeText descr (em ++ "version") with
  | error e => rw [hv2] at hok; exact absurd hok (by simp)
  | ok versionV =>
  rw [hv2] at hok
  dsimp only at hok
  rw [hunp] at hok
  dsimp only at hok
  by_cases hidt : jsTruthy idV = true
  · rw [if_pos hidt] at hok
    have hd := Except.ok.inj hok
    rw [← hd]
    exact legacyUnpackNorm s
  · rw [if_neg hidt] at hok
    exact absurd hok (by simp)

/-- C7: whenever the legacy parse succeeds and the text read for the
`unpack` element is the string `s` (the empty string both for an absent
element and for empty text), the resulting descriptor's `unpack` field is
the boolean that is `true` exactly when `s` lowercased equals `"true"` —
any other non-empty text, or absence, yields `false`. -/
theorem parseInstallRdf_unpack_text (a em rdf s : String) (doc : JsVal)
    (rdfNode descList descr : Option JsVal) (d : AddonDetails)
    (hem : getNamespaceId a doc emUri = Except.ok em)
    (hrdf : getNamespaceId a doc rdfUri = Except.ok rdf)
    (h1 : getProp (some doc) (rdf ++ "RDF") = Except.ok rdfNode)
    (h2 : getProp rdfNode (rdf ++ "Description") = Except.ok descList)
    (h3 : getProp descList "0" = Except.ok descr)
    (hunp : getNodeText descr (em ++ "unpack") = Except.ok (JsVal.str s))
    (hok : parseInstallRdf a (Except.ok doc) = Except.ok d) :
    d.unpack = Sum.inr (jsToLower s == "true") :=
  parseInstallRdf_unpack_aux a em rdf s doc rdfNode descList descr d
    hem hrdf h1 h2 h3 hunp hok

/-- C7 witness: `docLegacy` carries `<em:unpack>TRUE</em:unpack>` and
parses with `unpack = true`. -/
theorem parseInstallRdf_unpack_text_witness :
    getNamespaceId "p" docLegacy emUri = Except.ok "em:" ∧
    getNamespaceId "p" docLegacy rdfUri = Except.ok "" ∧
    getNodeText
        (some (JsVal.obj [("em:id", JsVal.arr [JsVal.str "addon@x"]),
          ("em:unpack", JsVal.arr [JsVal.str "TRUE"])]))
        ("em:" ++ "unpack") = Except.ok (JsVal.str "TRUE") ∧
    parseInstallRdf "p" (Except.ok docLegacy) = Except.ok
      { id := JsVal.str "addon@x", name := some (JsVal.str ""),
        version := some (JsVal.str ""), unpack := Sum.inr true } ∧
    ({ id := JsVal.str "addon@x", name := some (JsVal.str ""),
        version := some (JsVal.str ""),
        unpack := Sum.inr true } : AddonDetails).unpack
      = Sum.inr (jsToLower "TRUE" == "true") := by
  refine ⟨rfl, rfl, rfl, rfl, ?_⟩
  exact parseInstallRdf_unpack_text "p" "em:" "" "TRUE" docLegacy
    (some (JsVal.obj [("$", JsVal.obj [("xmlns:em", JsVal.str emUri),
      ("xmlns", JsVal.str rdfUri)]),
      ("Description", JsVal.arr [JsVal.obj [("em:id", JsVal.arr [JsVal.str "addon@x"]),
        ("em:unpack", JsVal.arr [JsVal.str "TRUE"])]])]))
    (some (JsVal.arr [JsVal.obj [("em:id", JsVal.arr [JsVal.str "addon@x"]),
      ("em:unpack", JsVal.arr [JsVal.str "TRUE"])]]))
    (some (JsVal.obj [("em:id", JsVal.arr [JsVal.str "addon@x"]),
      ("em:unpack", JsVal.arr [JsVal.str "TRUE"])]))
    { id := JsVal.str "addon@x", name := some (JsVal.str ""),
      version := some (JsVal.str ""), unpack := Sum.inr true }
    rfl rfl rfl rfl rfl rfl rfl

/-- C10: an `unpack` element that is present but whose text content is the
empty string reads back as the empty string, and the successful parse
yields the boolean `false` in the descriptor's `unpack` field (the value
`Sum.inr false`, not a leftover empty string) — identical to an absent
element. -/
theorem parseInstallRdf_unpack_empty (a em rdf : String) (doc : JsVal)
    (rdfNode descList : Option JsVal) (descFields : List (String × JsVal)) (d : AddonDetails)
    (hem : getNamespaceId a doc emUri = Except.ok em)
    (hrdf : getNamespaceId a doc rdfUri = Except.ok rdf)
    (h1 : getProp (some doc) (rdf ++ "RDF") = Except.ok rdfNode)
    (h2 : getProp rdfNode (rdf ++ "Description") = Except.ok descList)
    (h3 : getProp descList "0" = Except.ok (some (JsVal.obj descFields)))
    (hpresent : jsLookup descFields (em ++ "unpack") = some (JsVal.arr [JsVal.str ""]))
    (hok : parseInstallRdf a (Except.ok doc) = Except.ok d) :
    getNodeText (some (JsVal.obj descFields)) (em ++ "unpack") = Except.ok (JsVal.str "") ∧
    d.unpack = Sum.inr false := by
  have hgp : getProp (some (JsVal.obj descFields)) (em ++ "unpack")
      = Except.ok (some (JsVal.arr [JsVal.str ""])) := by
    show Except.ok (jsLookup descFields (em ++ "unpack")) = _
    rw [hpresent]
  have htext : getNodeText (some (JsVal.obj descFields)) (em ++ "unpack")
      = Except.ok (JsVal.str "") := by
    unfold getNodeText
    rw [hgp]
    rfl
  refine ⟨htext, ?_⟩
  have hu := parseInstallRdf_unpack_aux a em rdf "" doc rdfNode descList
    (some (JsVal.obj descFields)) d hem hrdf h1 h2 h3 htext hok
  rw [hu]
  rfl

/-- C10 witness: `docLegacyEmptyUnpack` holds an empty `em:unpack`
element; the parse succeeds with the boolean `false`. -/
theorem parseInstallRdf_unpack_empty_witness :
    getNamespaceId "p" docLegacyEmptyUnpack emUri = Except.ok "em:" ∧
    jsLookup legacyDescEmptyUnpack ("em:" ++ "unpack") = some (JsVal.arr [JsVal.str ""]) ∧
    parseInstallRdf "p" (Except.ok docLegacyEmptyUnpack) = Except.ok
      { id := JsVal.str "addon@y", name := some (JsVal.str ""),
        version := some (JsVal.str ""), unpack := Sum.inr false } ∧
    getNodeText (some (JsVal.obj legacyDescEmptyUnpack)) ("em:" ++ "unpack")
      = Except.ok (JsVal.str "") ∧
    ({ id := JsVal.str "addon@y", name := some (JsVal.str ""),
        version := some (JsVal.str ""),
        unpack := Sum.inr false } : AddonDetails).unpack = Sum.inr false := by
  refine ⟨rfl, rfl, rfl, ?_, ?_⟩
  · exact (parseInstallRdf_unpack_empty "p" "em:" "" docLegacyEmptyUnpack
      (some (JsVal.obj [("$", JsVal.obj [("xmlns:em", JsVal.str emUri),
        ("xmlns", JsVal.str rdfUri)]),
        ("Description", JsVal.arr [JsVal.obj legacyDescEmptyUnpack])]))
      (some (JsVal.arr [JsVal.obj legacyDescEmptyUnpack]))
      legacyDescEmptyUnpack
      { id := JsVal.str "addon@y", name := some (JsVal.str ""),
        version := some (JsVal.str ""), unpack := Sum.inr false }
      rfl rfl rfl rfl rfl rfl rfl).1
  · exact (parseInstallRdf_unpack_empty "p" "em:" "" docLegacyEmptyUnpack
      (some (JsVal.obj [("$", JsVal.obj [("xmlns:em", JsVal.str emUri),
        ("xmlns", JsVal.str rdfUri)]),
        ("Description", JsVal.arr [JsVal.obj legacyDescEmptyUnpack])]))
      (some (JsVal.arr [JsVal.obj legacyDescEmptyUnpack]))
      legacyDescEmptyUnpack
      { id := JsVal.str "addon@y", name := some (JsVal.str ""),
        version := some (JsVal.str ""), unpack := Sum.inr false }
      rfl rfl rfl rfl rfl rfl rfl).2

/-- C3: directory dispatch. When `install.rdf` exists in the directory the
manifest is read and handed to the legacy parser — unconditionally, so
also when `manifest.json` is present too; when only `manifest.json`
exists, it is read, JSON-parsed and handed to the modern parser; when
neither exists, the parse fails with the MalformedManifest error whose
message names the directory. -/
theorem parseDirectory_dispatch (c : Collab) (fs : FsNode) (d : String) :
    (ioExists fs (pathJoin d "install.rdf") = true →
      parseDirectory c fs d =
        match ioRead fs (pathJoin d "install.rdf") with
        | Except.error e => Except.error e
        | Except.ok buf => parseInstallRdf d (c.parseXml buf)) ∧
    (ioExists fs (pathJoin d "install.rdf") = false →
      ioExists fs (pathJoin d "manifest.json") = true →
      parseDirectory c fs d =
        match ioRead fs (pathJoin d "manifest.json") with
        | Except.error e => Except.error e
        | Except.ok buf =>
          match c.jsonParse buf with
          | Except.error e => Except.error e
          | Except.ok j => parseManifestJson d j) ∧
    (ioExists fs (pathJoin d "install.rdf") = false →
      ioExists fs (pathJoin d "manifest.json") = false →
      parseDirectory c fs d =
        Except.error (JsError.addonFormatError
          ("Couldn\x27t find install.rdf or manifest.json in " ++ d))) := by
  refine ⟨fun h1 => ?_, fun h1 h2 => ?_, fun h1 h2 => ?_⟩
  · unfold parseDirectory
    dsimp only
    rw [if_pos h1]
  · unfold parseDirectory
    dsimp only
    rw [if_neg (by simp [h1]), if_pos h2]
  · unfold parseDirectory
    dsimp only
    rw [if_neg (by simp [h1]), if_neg (by simp [h2])]

/-- C3 witness: on `sampleFsBoth` both manifests exist; dispatch picks the
legacy parser (the clause needing only the existence of `install.rdf`). -/
theorem parseDirectory_dispatch_witness :
    ioExists sampleFsBoth (pathJoin "addon" "install.rdf") = true ∧
    ioExists sampleFsBoth (pathJoin "addon" "manifest.json") = true ∧
    parseDirectory sampleCollab sampleFsBoth "addon" =
      match ioRead sampleFsBoth (pathJoin "addon" "install.rdf") with
      | Except.error e => Except.error e
      | Except.ok buf => parseInstallRdf "addon" (sampleCollab.parseXml buf) := by
  refine ⟨rfl, rfl, ?_⟩
  exact (parseDirectory_dispatch sampleCollab sampleFsBoth "addon").1 rfl

/-- C1: for a source path with the `.xpi` suffix whose descriptor has a
falsy `unpack`, `install` copies the archive bytes unchanged to
`destDir/<id>.xpi` — that target holds exactly the source bytes, no other
file of the tree is created or changed — and resolves with the
descriptor's id. -/
theorem install_xpi_packed_copy (c : Collab) (fs fs1 : FsNode) (src dir : String)
    (d : AddonDetails) (i content : String)
    (hx : sliceLast4 src = ".xpi")
    (hd : getDetails c fs src = Except.ok d)
    (hi : d.id = JsVal.str i)
    (hu : unpackTruthy d.unpack = false)
    (hread : ioRead fs src = Except.ok content)
    (hfresh : findAt (segsOf (pathJoin dir i ++ ".xpi")) fs = none)
    (hw : writeAt (segsOf (pathJoin dir i ++ ".xpi")) fs (FsNode.file content) = some fs1) :
    install c fs src dir = Except.ok (i, fs1) ∧
    fileAt (segsOf (pathJoin dir i ++ ".xpi")) fs1 = some content ∧
    (∀ q, q ≠ segsOf (pathJoin dir i ++ ".xpi") → fileAt q fs1 = fileAt q fs) := by
  refine ⟨?_, ?_, writeAt_fileAt_other _ _ _ _ hw hfresh⟩
  · unfold install
    rw [hd]
    dsimp only
    rw [hi]
    dsimp only
    rw [if_pos (by simp [hx]), if_neg (by simp [hu])]
    unfold ioCopy
    rw [hread]
    dsimp only
    rw [hw]
  · unfold fileAt
    rw [writeAt_findAt _ _ _ _ hw]

/-- C1 witness: `sampleFs` holds the packed archive `src/ext.xpi`; its
modern manifest yields id `ext@x` with `unpack = false`, and installation
copies the bytes to `dest/ext@x.xpi`. -/
theorem install_xpi_packed_copy_witness :
    sliceLast4 "src/ext.xpi" = ".xpi" ∧
    getDetails sampleCollab sampleFs "src/ext.xpi" = Except.ok sampleDetails ∧
    sampleDetails.id = JsVal.str "ext@x" ∧
    unpackTruthy sampleDetails.unpack = false ∧
    ioRead sampleFs "src/ext.xpi" = Except.ok "ZIPBYTES" ∧
    findAt (segsOf (pathJoin "dest" "ext@x" ++ ".xpi")) sampleFs = none ∧
    writeAt (segsOf (pathJoin "dest" "ext@x" ++ ".xpi")) sampleFs (FsNode.file "ZIPBYTES")
      = some sampleFsCopied ∧
    (install sampleCollab sampleFs "src/ext.xpi" "dest"
        = Except.ok ("ext@x", sampleFsCopied) ∧
      fileAt (segsOf (pathJoin "dest" "ext@x" ++ ".xpi")) sampleFsCopied
        = some "ZIPBYTES" ∧
      (∀ q, q ≠ segsOf (pathJoin "dest" "ext@x" ++ ".xpi") →
        fileAt q sampleFsCopied = fileAt q sampleFs)) := by
  refine ⟨rfl, rfl, rfl, rfl, rfl, rfl, rfl, ?_⟩
  exact install_xpi_packed_copy sampleCollab sampleFs sampleFsCopied "src/ext.xpi" "dest"
    sampleDetails "ext@x" "ZIPBYTES" rfl rfl rfl rfl rfl rfl rfl

/-- C2 counterexample: `sampleFsDirXpi` holds a *directory* named
`addon.xpi` with a valid modern manifest — `getDetails` recognizes it as a
directory and extracts the descriptor — yet `install` does not recursively
copy it: branching on the path suffix, it attempts a packed-archive file
copy, which rejects with an I/O error instead of installing. -/
theorem install_dir_named_xpi_cex :
    ioStat sampleFsDirXpi "addon.xpi" = Except.ok true ∧
    getDetails sampleCollab sampleFsDirXpi "addon.xpi" = Except.ok sampleDetails ∧
    install sampleCollab sampleFsDirXpi "addon.xpi" "dest" =
      Except.error (JsError.ioError "EISDIR: illegal operation on a directory, read addon.xpi") :=
  ⟨rfl, rfl, rfl⟩

/-- C2 amended: for a source path that stats as a directory *and does not
end in `.xpi`*, `install` places a copy of the whole source tree at
`destDir/<id>` and resolves with the manifest id; a directory whose path
ends in `.xpi` is instead sent down the archive branch (file copy or
unzip), not the recursive directory copy. -/
theorem install_plain_dir_copies (c : Collab) (fs fs1 : FsNode) (src dir : String)
    (d : AddonDetails) (i : String) (node : FsNode)
    (hnx : sliceLast4 src ≠ ".xpi")
    (hd : getDetails c fs src = Except.ok d)
    (hi : d.id = JsVal.str i)
    (hsrc : findAt (segsOf src) fs = some node)
    (hw : writeAt (segsOf (pathJoin dir i)) fs node = some fs1) :
    install c fs src dir = Except.ok (i, fs1) ∧
    findAt (segsOf (pathJoin dir i)) fs1 = some node := by
  refine ⟨?_, writeAt_findAt _ _ _ _ hw⟩
  unfold install
  rw [hd]
  dsimp only
  rw [hi]
  dsimp only
  rw [if_neg (by simp [hnx])]
  unfold ioCopyDir
  rw [hsrc]
  dsimp only
  rw [hw]

/-- C2 amended witness: the directory `addon` of `sampleFsDir` is
recursively copied to `dest/ext@x`. -/
theorem install_plain_dir_copies_witness :
    sliceLast4 "addon" ≠ ".xpi" ∧
    getDetails sampleCollab sampleFsDir "addon" = Except.ok sampleDetails ∧
    sampleDetails.id = JsVal.str "ext@x" ∧
    findAt (segsOf "addon") sampleFsDir = some sampleDirNode ∧
    writeAt (segsOf (pathJoin "dest" "ext@x")) sampleFsDir sampleDirNode
      = some sampleFsDirCopied ∧
    (install sampleCollab sampleFsDir "addon" "dest"
        = Except.ok ("ext@x", sampleFsDirCopied) ∧
      findAt (segsOf (pathJoin "dest" "ext@x")) sampleFsDirCopied = some sampleDirNode) := by
  refine ⟨by decide, rfl, rfl, rfl, rfl, ?_⟩
  exact install_plain_dir_copies sampleCollab sampleFsDir sampleFsDirCopied "addon" "dest"
    sampleDetails "ext@x" sampleDirNode (by decide) rfl rfl rfl rfl
